import Mathlib

/-!
Verification of the faunadb Rust client (prisma/faunadb-rust).

This file shallowly embeds the parts of the crate the verified claims are
about: the `Number`/`Expr`/`Value` data model (src/expr.rs,
src/expr/number.rs, src/client/response/value.rs), reference addressing
(src/expr/reference.rs), the JSON wire codec as implemented by the serde
derives on those types, the request/response classification of
`Client::request` (src/client.rs), the timeout-error mapping, and the
microsecond-timestamp deserializer (src/serde/ts_microseconds.rs).

Machine floating point numbers (Rust `f64`/`f32`) are modelled as opaque
bit patterns: the crate documents that NaN and infinity are not allowed,
and for finite values serde_json's shortest-representation printing and
exact parsing make the f64 wire round trip the identity, so an `F64` is
an uninterpreted token.  The composite map "print an `f32` with the
f32-width shortest formatter, reparse the text as `f64`" performed by the
wire codec is kept abstract: encoding is parameterised by that widening
function `w : F32 → F64`.
-/

set_option maxRecDepth 4000

namespace Fauna

/-- An opaque finite `f64` bit pattern.  serde_json prints a finite `f64`
with the shortest decimal that reparses to exactly the same value, so the
wire round trip on `f64` payloads is the identity and the payload can be
treated as an uninterpreted token. -/
structure F64 where
  bits : Nat
deriving DecidableEq, Repr

/-- An opaque finite `f32` bit pattern (see `F64`). -/
structure F32 where
  bits : Nat
deriving DecidableEq, Repr

/-- `Number` from src/expr/number.rs: `UInt(u64) | Int(i64) | Double(f64)
| Float(f32)`, in that declaration order (the order matters for the serde
`untagged` deserializer). -/
inductive Number where
  | uint (n : Nat)
  | int (i : Int)
  | double (d : F64)
  | float (f : F32)
deriving DecidableEq, Repr

/-- The kind of a `RefLocation` (src/expr/reference.rs).  The Rust enum
has four variants `Class`, `Database`, `Index`, `Function`, each wrapping
a boxed `Ref`; we model the variant tag separately from the wrapped ref. -/
inductive RefKind where
  | cls
  | database
  | index
  | function
deriving DecidableEq, Repr

/-- `Ref` from src/expr/reference.rs: `{ id: Cow<str>, location:
Option<RefLocation> }`.  A `RefLocation` is a kind together with the
wrapped reference. -/
inductive Ref where
  | mk (id : String) (location : Option (RefKind × Ref))

def Ref.id : Ref → String
  | .mk i _ => i

def Ref.location : Ref → Option (RefKind × Ref)
  | .mk _ l => l

/-- `Ref::instance(id)`: a ref with no location. -/
def Ref.inst (id : String) : Ref := .mk id none

/-- `Ref::class(id)`: location is the `classes` root singleton. -/
def Ref.cls (id : String) : Ref :=
  .mk id (some (.cls, Ref.inst "classes"))

/-- `Ref::index(id)`: location is the `indexes` root singleton. -/
def Ref.index (id : String) : Ref :=
  .mk id (some (.index, Ref.inst "indexes"))

/-- `Ref::function(id)`: location is the `functions` root singleton,
stored in the `Function` variant of `RefLocation`. -/
def Ref.function (id : String) : Ref :=
  .mk id (some (.function, Ref.inst "functions"))

/-- `Ref::database(id)`: location is the `databases` root singleton,
stored in the `Database` variant of `RefLocation`. -/
def Ref.database (id : String) : Ref :=
  .mk id (some (.database, Ref.inst "databases"))

/-- `Ref::set_class(id)`: replaces the location with
`Class { location: Box::new(Self::class(id)) }`. -/
def Ref.set_class (r : Ref) (id : String) : Ref :=
  .mk r.id (some (.cls, Ref.cls id))

/-- `Ref::set_index(id)`: replaces the location with
`Index { location: Box::new(Self::index(id)) }`. -/
def Ref.set_index (r : Ref) (id : String) : Ref :=
  .mk r.id (some (.index, Ref.index id))

/-- `Ref::path` together with `RefLocation::path`: renders
`"{location.path()}/{id}"` when a location is present, else just the id.
`RefLocation::path` forwards to the wrapped ref for every variant. -/
def Ref.path : Ref → String
  | .mk id none => id
  | .mk id (some (_, loc)) => Ref.path loc ++ "/" ++ id

/-! ## The JSON wire trees

serde_json parses a JSON number as a `u64` when it is a non-negative
integer, as an `i64` when it is a negative integer, and as an `f64`
otherwise; `JNum` is that parsed form, which is also what the serializers
for the `Number` variants produce (a `u64`/`i64` writes the integer, an
`f64`/`f32` writes a float). -/

/-- A JSON number as carried on the wire. -/
inductive JNum where
  | pos (n : Nat)
  | neg (i : Int)
  | flt (x : F64)
deriving DecidableEq, Repr

/-- A JSON document.  Objects are association lists in emission order;
serde's map deserializers do their own key handling, so decoding never
relies on the order. -/
inductive Json where
  | null
  | bool (b : Bool)
  | num (n : JNum)
  | str (s : String)
  | arr (xs : List Json)
  | obj (kvs : List (String × Json))

/-! ## Byte-level helpers: UTF-8 and base64 -/

/-- The UTF-8 encoding of one Unicode scalar value. -/
def utf8Char (c : Char) : List Nat :=
  let n := c.toNat
  if n < 0x80 then [n]
  else if n < 0x800 then [0xC0 + n / 64, 0x80 + n % 64]
  else if n < 0x10000 then
    [0xE0 + n / 4096, 0x80 + (n / 64) % 64, 0x80 + n % 64]
  else
    [0xF0 + n / 262144, 0x80 + (n / 4096) % 64, 0x80 + (n / 64) % 64,
     0x80 + n % 64]

/-- The UTF-8 bytes of a string; `payload.len()` and
`base64::encode(&str)` in the Rust code operate on these bytes. -/
def utf8Bytes (s : String) : List Nat :=
  s.data.foldr (fun c acc => utf8Char c ++ acc) []

/-- The standard base64 alphabet used by the `base64` crate's default
configuration. -/
def b64Alphabet : List Char :=
  "ABCDEFGHIJKLMNOPQRSTUVWXYZabcdefghijklmnopqrstuvwxyz0123456789+/".data

/-- The base64 digit for a 6-bit group. -/
def b64Char (n : Nat) : Char := b64Alphabet.getD n 'A'

/-- `base64::encode`: standard alphabet, `=`-padded. -/
def base64Encode : List Nat → String
  | [] => ""
  | [a] =>
    String.mk [b64Char (a / 4), b64Char (a % 4 * 16), '=', '=']
  | [a, b] =>
    String.mk [b64Char (a / 4), b64Char (a % 4 * 16 + b / 16),
               b64Char (b % 16 * 4), '=']
  | a :: b :: c :: rest =>
    String.mk [b64Char (a / 4), b64Char (a % 4 * 16 + b / 16),
               b64Char (b % 16 * 4 + c / 64), b64Char (c % 64)]
      ++ base64Encode rest

/-- The 6-bit value of a base64 digit, if it is one. -/
def b64Digit (c : Char) : Option Nat :=
  b64Alphabet.indexOf? c

/-- `base64::decode` on the characters of the input (standard alphabet,
padding required), used by the `@bytes` deserializer
(src/serde/base64_bytes.rs). -/
def base64DecodeChars : List Char → Option (List Nat)
  | [] => some []
  | [c1, c2, '=', '='] => do
    let a ← b64Digit c1
    let b ← b64Digit c2
    if b % 16 = 0 then some [a * 4 + b / 16] else none
  | [c1, c2, c3, '='] => do
    let a ← b64Digit c1
    let b ← b64Digit c2
    let c ← b64Digit c3
    if c % 4 = 0 then some [a * 4 + b / 16, b % 16 * 16 + c / 4] else none
  | c1 :: c2 :: c3 :: c4 :: rest => do
    let a ← b64Digit c1
    let b ← b64Digit c2
    let c ← b64Digit c3
    let d ← b64Digit c4
    let tail ← base64DecodeChars rest
    some ([a * 4 + b / 16, b % 16 * 16 + c / 4, c % 4 * 64 + d] ++ tail)
  | _ => none

/-- `base64::decode` of a string. -/
def base64Decode (s : String) : Option (List Nat) :=
  base64DecodeChars s.data

/-! ## Calendar arithmetic (models chrono)

chrono's `NaiveDate`/`DateTime<Utc>` civil-calendar conversions follow the
standard days-from-civil / civil-from-days algorithms; the conversions
below model them for the proleptic Gregorian calendar. -/

/-- A chrono `NaiveDate`: a calendar date with no time of day. -/
structure Date where
  year : Int
  month : Nat
  day : Nat
deriving DecidableEq, Repr

/-- A chrono `DateTime<Utc>` instant: seconds since the Unix epoch plus a
sub-second nanosecond part in `[0, 2·10^9)` (values of `10^9` and above
encode leap seconds, as in chrono). -/
structure Timestamp where
  secs : Int
  nanos : Nat
deriving DecidableEq, Repr

/-- Days from the Unix epoch (1970-01-01) to a civil date. -/
def daysFromCivil (y : Int) (m d : Nat) : Int :=
  let y := if m ≤ 2 then y - 1 else y
  let era := y.ediv 400
  let yoe := (y - era * 400).toNat
  let doy := (153 * (if 2 < m then m - 3 else m + 9) + 2) / 5 + d - 1
  let doe := yoe * 365 + yoe / 4 - yoe / 100 + doy
  era * 146097 + (doe : Int) - 719468

/-- Civil date of a count of days from the Unix epoch. -/
def civilFromDays (z : Int) : Date :=
  let z := z + 719468
  let era := z.ediv 146097
  let doe := (z - era * 146097).toNat
  let yoe := (doe - doe / 1460 + doe / 36524 - doe / 146096) / 365
  let y := (yoe : Int) + era * 400
  let doy := doe - (365 * yoe + yoe / 4 - yoe / 100)
  let mp := (5 * doy + 2) / 153
  let d := doy - (153 * mp + 2) / 5 + 1
  let m := if mp < 10 then mp + 3 else mp - 9
  { year := y + (if m ≤ 2 then 1 else 0), month := m, day := d }

/-- Decimal digits of a natural number, left-padded with zeros. -/
def padNum (width n : Nat) : String :=
  let s := Nat.repr n
  String.mk (List.replicate (width - s.length) '0') ++ s

/-- chrono's `%Y-%m-%d` rendering of a `NaiveDate`, as used by its serde
`Serialize` and by `Display`.  Negative years carry a sign; years are
zero-padded to four digits. -/
def formatDate (d : Date) : String :=
  let ys :=
    if d.year < 0 then "-" ++ padNum 4 d.year.natAbs else padNum 4 d.year.toNat
  ys ++ "-" ++ padNum 2 d.month ++ "-" ++ padNum 2 d.day

/-- chrono's subsecond rendering in `Debug`/serde output: nothing when the
nanosecond part is zero, otherwise 3, 6 or 9 digits depending on the
trailing zeros. -/
def formatSubsec (nanos : Nat) : String :=
  if nanos = 0 then ""
  else if nanos % 1000000 = 0 then "." ++ padNum 3 (nanos / 1000000)
  else if nanos % 1000 = 0 then "." ++ padNum 6 (nanos / 1000)
  else "." ++ padNum 9 nanos

/-- The RFC 3339 text chrono emits for a `DateTime<Utc>` through serde
(`Serialize` formats with the `Debug` items, ending in `Z`). -/
def formatTs (t : Timestamp) : String :=
  let days := t.secs.ediv 86400
  let sod := (t.secs.emod 86400).toNat
  let date := civilFromDays days
  formatDate date ++ "T" ++ padNum 2 (sod / 3600) ++ ":"
    ++ padNum 2 (sod / 60 % 60) ++ ":" ++ padNum 2 (sod % 60)
    ++ formatSubsec t.nanos ++ "Z"

/-- Whether a year is a leap year (proleptic Gregorian). -/
def isLeap (y : Int) : Bool :=
  y % 4 = 0 && (y % 100 ≠ 0 || y % 400 = 0)

/-- Days in a month of a given year. -/
def daysInMonth (y : Int) (m : Nat) : Nat :=
  if m = 2 then (if isLeap y then 29 else 28)
  else if m = 4 || m = 6 || m = 9 || m = 11 then 30
  else 31

/-- chrono `NaiveDate::from_ymd_opt` validity: month and day in range,
year within chrono's supported span. -/
def validYMD (y : Int) (m d : Nat) : Bool :=
  1 ≤ m && m ≤ 12 && 1 ≤ d && d ≤ daysInMonth y m
    && decide (-262144 ≤ y) && decide (y ≤ 262143)

/-- The numeric value of a non-empty all-digit character list. -/
def parseNatDigits (cs : List Char) : Option Nat :=
  if cs ≠ [] && cs.all Char.isDigit then
    some (cs.foldl (fun acc c => acc * 10 + (c.toNat - 48)) 0)
  else none

/-- Split a character list on a separator character. -/
def splitChars (sep : Char) : List Char → List (List Char)
  | [] => [[]]
  | c :: t =>
    match splitChars sep t with
    | [] => [[]]
    | h :: r => if c = sep then [] :: h :: r else (c :: h) :: r

/-- chrono `NaiveDate`'s `%Y-%m-%d` parser (yyyy-mm-dd with an optional
leading minus on the year) used by its serde `Deserialize`, including
the calendar validity check. -/
def parseDateChars (cs : List Char) : Option Date :=
  let (neg, body) :=
    match cs with
    | '-' :: rest => (true, rest)
    | _ => (false, cs)
  match splitChars '-' body with
  | [ys, ms, ds] => do
    let y ← parseNatDigits ys
    let m ← parseNatDigits ms
    let d ← parseNatDigits ds
    let yi : Int := if neg then -(y : Int) else y
    if validYMD yi m d then some ⟨yi, m, d⟩ else none
  | _ => none

/-- `parseDateChars` on a string. -/
def parseDate (s : String) : Option Date :=
  parseDateChars s.data

/-- Parse the `Z` or `±HH:MM` offset suffix of an RFC 3339 time,
returning the remaining prefix together with the offset in seconds. -/
def splitOffset (t : List Char) : Option (List Char × Int) :=
  if t.getLast? = some 'Z' then some (t.dropLast, 0)
  else if 6 ≤ t.length then
    match t.drop (t.length - 6) with
    | [sgn, h1, h2, ':', m1, m2] =>
      if sgn = '+' || sgn = '-' then do
        let hh ← parseNatDigits [h1, h2]
        let mm ← parseNatDigits [m1, m2]
        if hh < 24 && mm < 60 then
          let off : Int := hh * 3600 + mm * 60
          some (t.take (t.length - 6), if sgn = '-' then -off else off)
        else none
      else none
    | _ => none
  else none

/-- chrono `DateTime::parse_from_rfc3339` followed by
`.with_timezone(&Utc)`, as performed by the serde `Deserialize` of
`DateTime<Utc>`: date, `T`, time with optional subsecond fraction of up
to nine digits, and a `Z` or `±HH:MM` offset which is folded into the
UTC instant.  A leap second `:60` is stored, as in chrono, as second 59
with the nanosecond field increased by `10^9`. -/
def parseRfc3339 (s : String) : Option Timestamp :=
  match splitChars 'T' s.data with
  | [ds, tz] => do
    let date ← parseDateChars ds
    let (tpart, offset) ← splitOffset tz
    match splitChars ':' tpart with
    | [hs, ms, ss] => do
      let hh ← parseNatDigits hs
      let mm ← parseNatDigits ms
      let (sec, nanos) ←
        match splitChars '.' ss with
        | [whole] => do
          let sec ← parseNatDigits whole
          pure (sec, 0)
        | [whole, frac] => do
          let sec ← parseNatDigits whole
          let f ← parseNatDigits frac
          if frac.length ≤ 9 then
            pure (sec, f * 10 ^ (9 - frac.length))
          else none
        | _ => none
      if hh < 24 && mm < 60 && sec ≤ 60 then
        let (sec, leap) := if sec = 60 then (59, 1000000000) else (sec, 0)
        some { secs := daysFromCivil date.year date.month date.day * 86400
                         + hh * 3600 + mm * 60 + sec - offset,
               nanos := nanos + leap }
      else none
    | _ => none
  | _ => none

/-- Rust `String` ordering on the UTF-8 bytes, as used by
`BTreeMap<String, _>`.  Byte-lexicographic order on valid UTF-8
coincides with lexicographic order on the code points. -/
def charsLt : List Char → List Char → Bool
  | [], [] => false
  | [], _ :: _ => true
  | _ :: _, [] => false
  | c1 :: t1, c2 :: t2 =>
    if c1.toNat < c2.toNat then true
    else if c2.toNat < c1.toNat then false
    else charsLt t1 t2

/-- `charsLt` on strings. -/
def strLt (a b : String) : Bool :=
  charsLt a.data b.data

/-! ## The response value model (src/client/response/value.rs)

`Value` is an untagged union of `AnnotatedValue` (tried first by the
deserializer, in the declaration order `Annotated, Simple` of the
`Value` enum) and `SimpleValue`.  We flatten the two-level Rust enum
into one inductive; the comments mark which Rust enum each constructor
belongs to. -/

inductive Value where
  /-- `AnnotatedValue::Ref`, wire tag `@ref`. -/
  | ref (r : Ref)
  /-- `AnnotatedValue::Query`, wire tag `@query`. -/
  | query (v : Value)
  /-- `AnnotatedValue::Bytes`, wire tag `@bytes`, base64 text on the wire. -/
  | bytes (bs : List Nat)
  /-- `AnnotatedValue::Date`, wire tag `@date`. -/
  | date (d : Date)
  /-- `AnnotatedValue::Set`, wire tag `@set`. -/
  | set (v : Value)
  /-- `AnnotatedValue::Timestamp`, wire tag `@ts`. -/
  | ts (t : Timestamp)
  /-- `SimpleValue::String`. -/
  | str (s : String)
  /-- `SimpleValue::Number`. -/
  | num (n : Number)
  /-- `SimpleValue::Boolean`. -/
  | bool (b : Bool)
  /-- `SimpleValue::Array(Vec<Value>)`. -/
  | arr (xs : List Value)
  /-- `SimpleValue::Object(BTreeMap<String, Value>)`: modelled as the
  association list of the map's entries in ascending key order. -/
  | obj (kvs : List (String × Value))
  /-- `SimpleValue::Null`. -/
  | null

/-- The untagged serializer for `Number`: a `u64` or `i64` writes the
integer, an `f64` writes the float; an `f32` goes through the
f32-width shortest formatter, whose value as reparsed into the JSON
tree is `w` of the payload. -/
def encodeNumber (w : F32 → F64) : Number → JNum
  | .uint n => .pos n
  | .int i => if 0 ≤ i then .pos i.toNat else .neg i
  | .double d => .flt d
  | .float f => .flt (w f)

/-- The untagged deserializer for `Number`, trying the variants in
declaration order `UInt(u64), Int(i64), Double(f64), Float(f32)`: a
non-negative integer matches `u64` first, a negative integer matches
`i64`, and a float matches `f64` before `f32` is ever tried. -/
def decodeJNum : JNum → Number
  | .pos n => .uint n
  | .neg i => .int i
  | .flt x => .double x

/-- Association-list lookup (leftmost match), modelling a serde map
deserializer finding a field. -/
def alistLookup {α : Type} : List (String × α) → String → Option α
  | [], _ => none
  | (k, v) :: t, key => if key = k then some v else alistLookup t key

/-- Drop every entry with the given key, modelling `#[serde(flatten)]`
collecting the fields left over after the named fields are taken. -/
def removeKey {α : Type} (l : List (String × α)) (key : String) :
    List (String × α) :=
  l.filter (fun kv => kv.1 ≠ key)

/-- The wire tag of a `RefLocation` variant.  In src/expr/reference.rs
the serde renames are `Class → "class"`, `Database → "class"`,
`Index → "index"`, `Function → "class"`: three of the four variants
share the tag `class`. -/
def refTag : RefKind → String
  | .cls => "class"
  | .database => "class"
  | .index => "index"
  | .function => "class"

/-- The serde `Serialize` of `Ref`: the `id` field followed by the
flattened location (skipped when absent); the location variant
serializes as `{tag: {"@ref": <inner>}}`. -/
def encodeRef : Ref → Json
  | .mk id none => .obj [("id", .str id)]
  | .mk id (some (k, loc)) =>
    .obj [("id", .str id), (refTag k, .obj [("@ref", encodeRef loc)])]

mutual

/-- The serde `Deserialize` of `Ref`: read the required `id` string
field; every other entry is buffered for the flattened
`Option<RefLocation>`.  An empty buffer deserializes the option to
`None`; otherwise serde scans the buffered entries in order for the
first key naming a `RefLocation` variant — `class` (which, because
`Class`, `Database` and `Function` all rename to `class`, always
selects the first arm `Class`) or `index` — and deserializes that
variant's `{"@ref": …}` payload; a non-empty buffer without any
variant key is an error. -/
def decodeRef : Json → Option Ref
  | .obj kvs =>
    match alistLookup kvs "id" with
    | some (.str id) =>
      if kvs.any (fun kv => kv.1 ≠ "id") then
        match findLocVariant kvs with
        | some loc => some (.mk id (some loc))
        | none => none
      else some (.mk id none)
    | _ => none
  | _ => none

/-- Scan the non-`id` entries for the first `RefLocation` variant tag
and decode its payload. -/
def findLocVariant : List (String × Json) → Option (RefKind × Ref)
  | [] => none
  | (k, v) :: t =>
    if k = "class" then (decodeLocPayload v).map (fun r => (.cls, r))
    else if k = "index" then (decodeLocPayload v).map (fun r => (.index, r))
    else findLocVariant t

/-- A `RefLocation` variant payload: a map whose `@ref` field holds the
wrapped reference (other fields are ignored, serde's default). -/
def decodeLocPayload : Json → Option Ref
  | .obj innerKvs => findRefField innerKvs
  | _ => none

/-- Find the `@ref` field of a location payload and decode it. -/
def findRefField : List (String × Json) → Option Ref
  | [] => none
  | (k, v) :: t => if k = "@ref" then decodeRef v else findRefField t

end

/-! ## Serializing a `Value` (the derived `Serialize` impls) -/

mutual

/-- The serde `Serialize` of `Value`: simple variants write their direct
JSON equivalent (a response `Object` writes a plain JSON map, with no
`"object"` wrapper — this enum has no annotated-object variant);
annotated variants write a single-key map with their reserved tag. -/
def encodeValue (w : F32 → F64) : Value → Json
  | .ref r => .obj [("@ref", encodeRef r)]
  | .query v => .obj [("@query", encodeValue w v)]
  | .bytes bs => .obj [("@bytes", .str (base64Encode bs))]
  | .date d => .obj [("@date", .str (formatDate d))]
  | .set v => .obj [("@set", encodeValue w v)]
  | .ts t => .obj [("@ts", .str (formatTs t))]
  | .str s => .str s
  | .num n => .num (encodeNumber w n)
  | .bool b => .bool b
  | .arr xs => .arr (encodeList w xs)
  | .obj kvs => .obj (encodeKVs w kvs)
  | .null => .null

/-- Elementwise serialization of an array's contents. -/
def encodeList (w : F32 → F64) : List Value → List Json
  | [] => []
  | x :: t => encodeValue w x :: encodeList w t

/-- Entrywise serialization of an object's contents (a `BTreeMap`
serializes its entries in ascending key order, which is the order the
model stores). -/
def encodeKVs (w : F32 → F64) : List (String × Value) → List (String × Json)
  | [] => []
  | (k, v) :: t => (k, encodeValue w v) :: encodeKVs w t

end

/-! ## Deserializing a `Value` (the derived `Deserialize` impls) -/

/-- `BTreeMap` insertion into an ascending association list: replaces an
existing binding for the key or splices the new one in key order. -/
def mapInsert : List (String × Value) → String → Value → List (String × Value)
  | [], k, v => [(k, v)]
  | (k1, v1) :: t, k, v =>
    if k = k1 then (k, v) :: t
    else if strLt k k1 then (k, v) :: (k1, v1) :: t
    else (k1, v1) :: mapInsert t k v

/-- Collecting decoded map entries into a `BTreeMap`: later entries with
a duplicate key overwrite earlier ones. -/
def buildMap (l : List (String × Value)) : List (String × Value) :=
  l.foldl (fun m kv => mapInsert m kv.1 kv.2) []

/-- The reserved annotation tags of `AnnotatedValue`. -/
def reservedTags : List String :=
  ["@ref", "@query", "@bytes", "@date", "@set", "@ts"]

mutual

/-- The serde `Deserialize` of the untagged `Value` enum.  The variants
are tried in declaration order: `Annotated` first, then `Simple`.  The
externally tagged `AnnotatedValue` matches only a single-entry map whose
key is one of the reserved tags and whose payload its variant accepts;
on any failure the deserializer backtracks to `SimpleValue`, whose six
untagged variants between them accept every JSON value, so decoding is
total. -/
def decodeValue : Json → Value
  | .null => .null
  | .bool b => .bool b
  | .num n => .num (decodeJNum n)
  | .str s => .str s
  | .arr xs => .arr (decodeList xs)
  | .obj [(k, payload)] =>
    if k = "@ref" then
      match decodeRef payload with
      | some r => .ref r
      | none => .obj (buildMap [(k, decodeValue payload)])
    else if k = "@query" then .query (decodeValue payload)
    else if k = "@bytes" then
      match payload with
      | .str s =>
        match base64Decode s with
        | some bs => .bytes bs
        | none => .obj (buildMap [(k, decodeValue payload)])
      | _ => .obj (buildMap [(k, decodeValue payload)])
    else if k = "@date" then
      match payload with
      | .str s =>
        match parseDate s with
        | some d => .date d
        | none => .obj (buildMap [(k, decodeValue payload)])
      | _ => .obj (buildMap [(k, decodeValue payload)])
    else if k = "@set" then .set (decodeValue payload)
    else if k = "@ts" then
      match payload with
      | .str s =>
        match parseRfc3339 s with
        | some t => .ts t
        | none => .obj (buildMap [(k, decodeValue payload)])
      | _ => .obj (buildMap [(k, decodeValue payload)])
    else .obj (buildMap [(k, decodeValue payload)])
  | .obj kvs => .obj (buildMap (decodeKVs kvs))

/-- Elementwise deserialization of an array. -/
def decodeList : List Json → List Value
  | [] => []
  | x :: t => decodeValue x :: decodeList t

/-- Entrywise deserialization of a map's contents (before `BTreeMap`
collection). -/
def decodeKVs : List (String × Json) → List (String × Value)
  | [] => []
  | (k, v) :: t => (k, decodeValue v) :: decodeKVs t

end

/-! ## Numeric normalization

What the wire round trip provably does to number kinds: a non-negative
`Int` comes back as `UInt` (the untagged deserializer tries `u64`
first), and a `Float` comes back as `Double` (the wire text is an
untyped float, reparsed as `f64`). -/

/-- Kind normalization performed by `decode ∘ encode` on a `Number`. -/
def normNumber (w : F32 → F64) : Number → Number
  | .uint n => .uint n
  | .int i => if 0 ≤ i then .uint i.toNat else .int i
  | .double d => .double d
  | .float f => .double (w f)

mutual

/-- `normNumber` applied to every number inside a value. -/
def normValue (w : F32 → F64) : Value → Value
  | .ref r => .ref r
  | .query v => .query (normValue w v)
  | .bytes bs => .bytes bs
  | .date d => .date d
  | .set v => .set (normValue w v)
  | .ts t => .ts t
  | .str s => .str s
  | .num n => .num (normNumber w n)
  | .bool b => .bool b
  | .arr xs => .arr (normList w xs)
  | .obj kvs => .obj (normKVs w kvs)
  | .null => .null

def normList (w : F32 → F64) : List Value → List Value
  | [] => []
  | x :: t => normValue w x :: normList w t

def normKVs (w : F32 → F64) : List (String × Value) → List (String × Value)
  | [] => []
  | (k, v) :: t => (k, normValue w v) :: normKVs w t

end

/-! ## Values producible from host primitives -/

/-- Whether a `Number` can arise from the `From` impls for the host
numeric types: every unsigned width lands in `UInt(u64)`, every signed
width in `Int(i64)`, `f32` in `Float` and `f64` in `Double`. -/
def producibleNumber : Number → Bool
  | .uint n => decide (n < 2 ^ 64)
  | .int i => decide (-(2 ^ 63) ≤ i) && decide (i < 2 ^ 63)
  | .double _ => true
  | .float _ => true

/-- Adjacent-keys strict ascending check: the invariant of the entry
list of a `BTreeMap<String, _>`. -/
def keysSorted : List (String × Value) → Bool
  | [] => true
  | [_] => true
  | (k1, _) :: (k2, v2) :: t =>
    strLt k1 k2 && keysSorted ((k2, v2) :: t)

mutual

/-- Values producible from host primitives: strings, numbers from the
fixed-width conversions, booleans, sequences and mappings of producible
values (a mapping carries the `BTreeMap` sorted-unique-keys invariant),
and null. -/
def producible : Value → Bool
  | .str _ => true
  | .num n => producibleNumber n
  | .bool _ => true
  | .arr xs => producibleList xs
  | .obj kvs => keysSorted kvs && producibleKVs kvs
  | .null => true
  | _ => false

def producibleList : List Value → Bool
  | [] => true
  | x :: t => producible x && producibleList t

def producibleKVs : List (String × Value) → Bool
  | [] => true
  | (_, v) :: t => producible v && producibleKVs t

end

mutual

/-- No object anywhere in the value uses one of the reserved annotation
tags as a key (the spec's own constraint: "callers must not construct
ambiguous plain objects with these exact keys"). -/
def noReservedKeys : Value → Bool
  | .query v => noReservedKeys v
  | .set v => noReservedKeys v
  | .arr xs => noReservedKeysList xs
  | .obj kvs => noReservedKeysKVs kvs
  | _ => true

def noReservedKeysList : List Value → Bool
  | [] => true
  | x :: t => noReservedKeys x && noReservedKeysList t

def noReservedKeysKVs : List (String × Value) → Bool
  | [] => true
  | (k, v) :: t =>
    !(k == "@ref") && !(k == "@query") && !(k == "@bytes")
      && !(k == "@date") && !(k == "@set") && !(k == "@ts")
      && noReservedKeys v && noReservedKeysKVs t

end

/-! ## The request-side expression model (src/expr.rs)

`Expr` is the untagged union of `AnnotatedExpr`, `Query` and
`SimpleExpr` (in that declaration order).  Unlike the response `Value`,
a plain object lives in *both* enums: `SimpleExpr::Object` (as decoded
from a response, with no annotation) and `AnnotatedExpr::Object` (with
the wire tag `"object"`).  The out-of-scope query catalog (the `Query`
enum with its 100+ per-function structs) is modelled as an opaque
payload: no claim inspects a query's contents. -/

/-- Opaque stand-in for the out-of-scope `Query` enum
(src/query.rs). -/
structure QueryExpr where
  tag : Nat
deriving DecidableEq, Repr

inductive Expr where
  /-- `AnnotatedExpr::Quote`, wire tag `@query`. -/
  | quote (e : Expr)
  /-- `AnnotatedExpr::Bytes`, wire tag `@bytes`. -/
  | bytes (bs : List Nat)
  /-- `AnnotatedExpr::Date`, wire tag `@date`. -/
  | date (d : Date)
  /-- `AnnotatedExpr::Ref`, wire tag `@ref`. -/
  | ref (r : Ref)
  /-- `AnnotatedExpr::Set`, wire tag `@set`; the `Set` struct of
  src/expr/set.rs has the two expression fields `match` and `terms`. -/
  | setE (matching : Expr) (terms : Expr)
  /-- `AnnotatedExpr::Timestamp`, wire tag `@ts`. -/
  | ts (t : Timestamp)
  /-- `AnnotatedExpr::Object`, wire tag `object`. -/
  | objA (kvs : List (String × Expr))
  /-- `Expr::Query` (the out-of-scope function catalog). -/
  | query (q : QueryExpr)
  /-- `SimpleExpr::String`. -/
  | str (s : String)
  /-- `SimpleExpr::Number`. -/
  | num (n : Number)
  /-- `SimpleExpr::Boolean`. -/
  | bool (b : Bool)
  /-- `SimpleExpr::Array`. -/
  | arrE (xs : List Expr)
  /-- `SimpleExpr::Object` (an un-annotated object, as produced by
  decoding a response). -/
  | objS (kvs : List (String × Expr))
  /-- `SimpleExpr::Null`. -/
  | null

mutual

/-- `Expr::reuse` (src/expr.rs): re-annotates a simple or annotated
object as an annotated object after recursing into its values, recurses
into the elements of a simple array, and returns every other variant
unchanged. -/
def Expr.reuse : Expr → Expr
  | .objS o => .objA (objectReuse o)
  | .objA o => .objA (objectReuse o)
  | .arrE v => .arrE (arrayReuse v)
  | e => e

/-- `Array::reuse` (src/expr/array.rs): `reuse` every element. -/
def arrayReuse : List Expr → List Expr
  | [] => []
  | e :: t => Expr.reuse e :: arrayReuse t

/-- `Object::reuse` (src/expr/object.rs): `reuse` every value. -/
def objectReuse : List (String × Expr) → List (String × Expr)
  | [] => []
  | (k, v) :: t => (k, Expr.reuse v) :: objectReuse t

end

/-! ## Host-primitive conversions (src/macros.rs, src/expr/number.rs)

The `int_expr!(i8, i16, i32, i64)` macro generates, for each signed
width, `From<$kind> for Number` as `Number::Int(i64::from(i))` and
`From<$kind> for Expr` as `Expr::Simple(SimpleExpr::Number(i.into()))`;
`uint_expr!(u8, u16, u32, u64)` likewise with `Number::UInt(u64::from(i))`.
The `i64::from`/`u64::from` widenings are value-preserving, so one
function per signedness models all four widths. -/

/-- `From<i8/i16/i32/i64> for Number`. -/
def Number.fromSignedInt (i : Int) : Number := .int i

/-- `From<u8/u16/u32/u64> for Number`. -/
def Number.fromUnsignedInt (n : Nat) : Number := .uint n

/-- `From<f64> for Number`. -/
def Number.fromF64 (d : F64) : Number := .double d

/-- `From<f32> for Number`. -/
def Number.fromF32 (f : F32) : Number := .float f

/-- `From<$kind> for Expr` for the signed integer widths. -/
def Expr.fromSignedInt (i : Int) : Expr := .num (Number.fromSignedInt i)

/-- `From<$kind> for Expr` for the unsigned integer widths. -/
def Expr.fromUnsignedInt (n : Nat) : Expr := .num (Number.fromUnsignedInt n)

/-- `From<f64> for Expr`. -/
def Expr.fromF64 (d : F64) : Expr := .num (Number.fromF64 d)

/-- `From<f32> for Expr`. -/
def Expr.fromF32 (f : F32) : Expr := .num (Number.fromF32 f)

/-- `From<&str>/From<String> for Expr`. -/
def Expr.fromStr (s : String) : Expr := .str s

/-- `From<bool> for Expr`. -/
def Expr.fromBool (b : Bool) : Expr := .bool b

/-- `From<Vec<E>> for Array` then `From<Array> for Expr`
(a simple, un-annotated array). -/
def Expr.fromVec (xs : List Expr) : Expr := .arrE xs

/-- `From<Object> for Expr`: objects enter as the *annotated* variant. -/
def Expr.fromObject (kvs : List (String × Expr)) : Expr := .objA kvs

/-- The corresponding `From` impls into the response `Value`
(src/client/response/value.rs): `From<T: Into<Number>>`,
`From<&str>`, `From<Vec<V>>`, `From<BTreeMap<S, V>>`. -/
def Value.fromSignedInt (i : Int) : Value := .num (Number.fromSignedInt i)

def Value.fromUnsignedInt (n : Nat) : Value := .num (Number.fromUnsignedInt n)

def Value.fromF64 (d : F64) : Value := .num (Number.fromF64 d)

def Value.fromF32 (f : F32) : Value := .num (Number.fromF32 f)

def Value.fromStr (s : String) : Value := .str s

def Value.fromVec (xs : List Value) : Value := .arr xs

def Value.fromMap (kvs : List (String × Value)) : Value := .obj kvs

/-! ## The error taxonomy (src/error.rs) -/

/-- `FaunaError`: one structured error of a 400/404 body. -/
structure FaunaError where
  position : List Value
  code : String
  description : String

/-- `FaunaErrors`: the `{"errors": [...]}` body shape. -/
structure FaunaErrors where
  errors : List FaunaError

/-- The `Error` enum of src/error.rs.  The variant carrying the raw
body text of an unclassified status is `DatabaseError(String)` there;
the stacked older revision of src/client.rs spells the same variant
`TemporaryFailure`.  Payloads irrelevant to the claims (source errors
of the transport and configuration variants) are dropped. -/
inductive Error where
  | connectionError
  | configurationError
  | timeoutError
  | other
  | unauthorized
  | emptyResponse
  | badRequest (errors : FaunaErrors)
  | notFound (errors : FaunaErrors)
  | requestDataFailure (msg : String)
  | responseDataFailure (msg : String)
  | databaseError (body : String)
  | conversionError (msg : String)

/-! ## Status classification (`Client::request`, src/client.rs)

After the body is concatenated, `String::from_utf8` either fails (the
`else` branch: `EmptyResponse`) or yields the body text, and the match
on the status chooses what to do with it.  The continuation chosen for
the body is represented symbolically: the `parse…` outcomes feed the
body to `serde_json::from_str(..).unwrap()` (for 2xx through the `f`
closure into `{resource: Value}`, for 400/404 into `FaunaErrors`), and
the unwrap panics when that parse fails. -/

/-- What `Client::request` does with a completed HTTP exchange, as a
function of the status code and the UTF-8 decoding of the body
(`none` models a body that is not valid UTF-8). -/
inductive Outcome where
  /-- 2xx: `future::ok(f(body))` — parse the body as the success shape. -/
  | parseSuccessBody (body : String)
  /-- 401: `Error::Unauthorized`, body untouched. -/
  | unauthorized
  /-- 400: parse the body as `FaunaErrors`, wrap in `BadRequest`. -/
  | parseBadRequest (body : String)
  /-- 404: parse the body as `FaunaErrors`, wrap in `NotFound`. -/
  | parseNotFound (body : String)
  /-- any other status: the raw body text, unparsed
  (`TemporaryFailure`/`DatabaseError`). -/
  | databaseError (body : String)
  /-- `String::from_utf8` failed: `Error::EmptyResponse`. -/
  | emptyResponse
deriving DecidableEq, Repr

/-- The classification in `Client::request` (src/client.rs lines
99-117): `hyper::StatusCode::is_success` is `200 ≤ s < 300`, then the
literal statuses 401, 400, 404, then the catch-all. -/
def requestClassify (status : Nat) (utf8Body : Option String) : Outcome :=
  match utf8Body with
  | none => .emptyResponse
  | some body =>
    if 200 ≤ status && status < 300 then .parseSuccessBody body
    else if status = 401 then .unauthorized
    else if status = 400 then .parseBadRequest body
    else if status = 404 then .parseNotFound body
    else .databaseError body

/-! ## The timeout race (src/client.rs lines 120-131)

`Timeout::new(requesting, self.timeout)` resolves to either the inner
future's value or a `tokio_timer::timeout::Error`, which is one of
three things: the inner future's own error, the deadline having
elapsed, or a failure of the timer infrastructure.  `is_timer()` is
true only for the third; `into_inner()` is `Some` only for the
first. -/

/-- `tokio_timer::timeout::Error<Error>`. -/
inductive TimeoutErr where
  /-- the wrapped future completed with this error -/
  | inner (e : Error)
  /-- the deadline elapsed before the wrapped future completed -/
  | elapsed
  /-- the timer infrastructure itself failed -/
  | timer

/-- `tokio_timer::timeout::Error::is_timer`: true only for a timer
infrastructure failure, not for an elapsed deadline. -/
def TimeoutErr.is_timer : TimeoutErr → Bool
  | .timer => true
  | _ => false

/-- `tokio_timer::timeout::Error::into_inner`: the wrapped future's
error, if that is what this is. -/
def TimeoutErr.into_inner : TimeoutErr → Option Error
  | .inner e => some e
  | _ => none

/-- The `map_err` closure applied to the timeout-wrapped future in
`Client::request`. -/
def timeoutMapErr (e : TimeoutErr) : Error :=
  if e.is_timer then .timeoutError
  else
    match e.into_inner with
    | some error => error
    | none => .other

/-- The resolution of the timeout-wrapped request future: either the
inner future's value, or a timeout error mapped through
`timeoutMapErr`. -/
def raceResult {T : Type} : Except TimeoutErr T → Except Error T
  | .ok t => .ok t
  | .error e => .error (timeoutMapErr e)

/-! ## Client construction and request building (src/client.rs) -/

/-- `std::time::Duration` (seconds and nanoseconds). -/
structure Duration where
  secs : Nat
  nanos : Nat
deriving DecidableEq, Repr

/-- `ClientBuilder`. -/
structure ClientBuilder where
  uri : String
  secret : String
  timeout : Duration

/-- `ClientBuilder::new(secret)`: default endpoint
`https://db.fauna.com`, default timeout `Duration::new(60, 0)`. -/
def ClientBuilder.new (secret : String) : ClientBuilder :=
  { uri := "https://db.fauna.com", secret := secret, timeout := ⟨60, 0⟩ }

/-- `ClientBuilder::uri`: override the endpoint. -/
def ClientBuilder.withUri (b : ClientBuilder) (uri : String) : ClientBuilder :=
  { b with uri := uri }

/-- `ClientBuilder::timeout`: override the timeout. -/
def ClientBuilder.withTimeout (b : ClientBuilder) (t : Duration) : ClientBuilder :=
  { b with timeout := t }

/-- `Client` (the transport handle is elided: it carries no data the
claims are about). -/
structure Client where
  uri : String
  timeout : Duration
  authorization : String

/-- `ClientBuilder::build`: the authorization header value is
`"Basic " ++ base64(secret ++ ":")` computed once; URI parsing and
transport construction are elided. -/
def ClientBuilder.build (b : ClientBuilder) : Client :=
  { uri := b.uri, timeout := b.timeout,
    authorization := "Basic " ++ base64Encode (utf8Bytes (b.secret ++ ":")) }

/-- A built HTTP request: method, target, header list in insertion
order, body. -/
structure HttpRequest where
  method : String
  uri : String
  headers : List (String × String)
  body : String
deriving DecidableEq, Repr

/-- `Client::build_request` (src/client.rs lines 134-146): POST to the
client's URI with exactly the four headers `Content-Length` (decimal
byte length of the payload), `Content-Type`, `Authorization` and
`X-FaunaDB-API-Version`, in that order. -/
def Client.build_request (c : Client) (payload : String) : HttpRequest :=
  { method := "POST", uri := c.uri,
    headers := [("Content-Length", Nat.repr (utf8Bytes payload).length),
                ("Content-Type", "application/json"),
                ("Authorization", c.authorization),
                ("X-FaunaDB-API-Version", "2.1")],
    body := payload }

/-! ## The microsecond timestamp deserializer
(src/serde/ts_microseconds.rs and the `chrono_from` helper of
src/serde.rs) -/

/-- chrono's `LocalResult`. -/
inductive LocalResult (T : Type) where
  | nothing
  | ambiguous (t1 t2 : T)
  | single (t : T)
deriving DecidableEq, Repr

/-- `chrono_from` (src/serde.rs): `LocalResult::None` and
`LocalResult::Ambiguous` surface as deserialization errors with a
message naming the offending value; only `Single` succeeds.  Nothing is
ever clamped. -/
def chrono_from {T : Type} (me : LocalResult T) (ts : String) :
    Except String T :=
  match me with
  | .nothing => .error ("value is not a legal timestamp: " ++ ts)
  | .ambiguous _ _ => .error ("value is an ambiguous timestamp: " ++ ts)
  | .single val => .ok val

/-- The lowest epoch-day chrono's `NaiveDate` can represent
(year -262144). -/
def chronoMinDay : Int := daysFromCivil (-262144) 1 1

/-- The greatest epoch-day chrono's `NaiveDate` can represent
(year 262143). -/
def chronoMaxDay : Int := daysFromCivil 262143 12 31

/-- `Utc.timestamp_opt(secs, nsecs)`: chrono splits `secs` with
Euclidean division into a day and a second-of-day, requires the day to
be representable as a `NaiveDate` and `nsecs < 2·10^9`; for `Utc` the
result is never `Ambiguous`. -/
def timestamp_opt (secs : Int) (nsecs : Nat) : LocalResult Timestamp :=
  let days := secs.ediv 86400
  if nsecs < 2000000000 && chronoMinDay ≤ days && days ≤ chronoMaxDay then
    .single ⟨secs, nsecs⟩
  else .nothing

/-- Rust `as u32` on an `i64`: wrap modulo `2^32`. -/
def castU32 (x : Int) : Nat := (x.emod 4294967296).toNat

/-- Rust `as i64` on a `u64`: wrap modulo `2^64` into the signed
range. -/
def castI64 (n : Nat) : Int :=
  if n % 18446744073709551616 < 9223372036854775808 then
    (n % 18446744073709551616 : Nat)
  else (n % 18446744073709551616 : Nat) - 18446744073709551616

/-- `MicroSeondsTimestampVisitor::visit_i64`: split the microsecond
count with Rust's truncating `/` and `%`, scale the remainder to
nanoseconds and cast it `as u32` (wrapping), and convert through
`Utc.timestamp_opt` and `chrono_from`. -/
def visit_i64 (value : Int) : Except String Timestamp :=
  chrono_from
    (timestamp_opt (value.tdiv 1000000) (castU32 (value.tmod 1000000 * 1000)))
    (toString value)

/-- `MicroSeondsTimestampVisitor::visit_u64`. -/
def visit_u64 (value : Nat) : Except String Timestamp :=
  chrono_from
    (timestamp_opt (castI64 (value / 1000000)) (value % 1000000 * 1000))
    (toString value)

/-! ## Indexing into a response value
(src/client/response/index.rs, src/client/response/value.rs) -/

/-- The two implementors of the sealed `ValueIndex` trait: a `usize`
position and a string key. -/
inductive IndexKey where
  | pos (n : Nat)
  | key (s : String)

/-- `ValueIndex::index_into`: a position indexes only a simple array
(`Vec::get`), a key indexes only a simple object (`BTreeMap::get`);
every other combination is `None`. -/
def indexInto (i : IndexKey) (v : Value) : Option Value :=
  match i, v with
  | .pos n, .arr xs => xs.get? n
  | .pos _, _ => none
  | .key k, .obj kvs => alistLookup kvs k
  | .key _, _ => none

/-- `Value::get`. -/
def Value.get (v : Value) (i : IndexKey) : Option Value :=
  indexInto i v

/-- `ops::Index for Value`: `index_into(self).unwrap_or(&NULL)` — the
static `Null` value whenever the lookup fails. -/
def Value.bracket (v : Value) (i : IndexKey) : Value :=
  (indexInto i v).getD .null

/-- The failure condition named by the claim: the value is not the
container kind matching the index, the key is absent, or the position
is out of bounds. -/
def indexFails (v : Value) (i : IndexKey) : Bool :=
  match i, v with
  | .pos n, .arr xs => decide (xs.length ≤ n)
  | .pos _, _ => true
  | .key k, .obj kvs => (alistLookup kvs k).isNone
  | .key _, _ => true

/-! ## Order lemmas for the key ordering -/

theorem charsLt_irrefl : ∀ cs, charsLt cs cs = false
  | [] => rfl
  | c :: t => by
    have ih := charsLt_irrefl t
    simp [charsLt, ih]

theorem charsLt_asymm : ∀ a b, charsLt a b = true → charsLt b a = false
  | [], [], _ => rfl
  | [], _ :: _, _ => rfl
  | _ :: _, [], h => by simp [charsLt] at h
  | c1 :: t1, c2 :: t2, h => by
    simp only [charsLt] at h ⊢
    split at h
    · rename_i hlt
      rw [if_neg (by omega), if_pos (by omega)]
    · split at h
      · exact absurd h (by simp)
      · rename_i h1 h2
        rw [if_neg h2, if_neg h1]
        exact charsLt_asymm t1 t2 h

theorem charsLt_trans :
    ∀ a b c, charsLt a b = true → charsLt b c = true → charsLt a c = true
  | [], _, _ :: _, _, _ => rfl
  | [], b, [], _, hb => by cases b <;> simp [charsLt] at hb
  | a1 :: t1, b, [], ha, hb => by cases b <;> simp [charsLt] at ha hb
  | a1 :: t1, [], c1 :: t3, ha, _ => by simp [charsLt] at ha
  | a1 :: t1, b1 :: t2, c1 :: t3, ha, hb => by
    simp only [charsLt] at ha hb ⊢
    by_cases h1 : a1.toNat < b1.toNat
    · by_cases h2 : b1.toNat < c1.toNat
      · rw [if_pos (by omega)]
      · rw [if_neg h2] at hb
        split at hb
        · exact absurd hb (by simp)
        · rename_i h3
          rw [if_pos (by omega)]
    · rw [if_neg h1] at ha
      split at ha
      · exact absurd ha (by simp)
      · rename_i h3
        have he : a1.toNat = b1.toNat := by omega
        by_cases h2 : b1.toNat < c1.toNat
        · rw [if_pos (by omega)]
        · rw [if_neg h2] at hb
          split at hb
          · exact absurd hb (by simp)
          · rename_i h4
            rw [if_neg (by omega), if_neg (by omega)]
            exact charsLt_trans t1 t2 t3 ha hb

theorem strLt_irrefl (a : String) : strLt a a = false :=
  charsLt_irrefl a.data

theorem strLt_asymm {a b : String} (h : strLt a b = true) :
    strLt b a = false :=
  charsLt_asymm a.data b.data h

theorem strLt_trans {a b c : String} (h1 : strLt a b = true)
    (h2 : strLt b c = true) : strLt a c = true :=
  charsLt_trans a.data b.data c.data h1 h2

theorem strLt_ne {a b : String} (h : strLt a b = true) : a ≠ b := by
  intro he
  rw [he, strLt_irrefl] at h
  exact absurd h (by simp)

/-! ## `buildMap` is the identity on sorted entry lists -/

theorem keysSorted_tail {p : String × Value} {t : List (String × Value)}
    (h : keysSorted (p :: t) = true) : keysSorted t = true := by
  match p, t with
  | _, [] => rfl
  | (k1, v1), (k2, v2) :: t2 =>
    simp only [keysSorted, Bool.and_eq_true] at h
    exact h.2

theorem keysSorted_head_lt {k : String} {v : Value}
    {t : List (String × Value)} (h : keysSorted ((k, v) :: t) = true) :
    ∀ q ∈ t, strLt k q.1 = true := by
  induction t generalizing k v with
  | nil => intro q hq; cases hq
  | cons hd t2 ih =>
    obtain ⟨k2, v2⟩ := hd
    simp only [keysSorted, Bool.and_eq_true] at h
    intro q hq
    cases hq with
    | head => exact h.1
    | tail _ hq2 => exact strLt_trans h.1 (ih h.2 q hq2)

theorem mapInsert_append {m : List (String × Value)} {k : String}
    {v : Value} (h : ∀ p ∈ m, strLt p.1 k = true) :
    mapInsert m k v = m ++ [(k, v)] := by
  induction m with
  | nil => rfl
  | cons hd t ih =>
    obtain ⟨k1, v1⟩ := hd
    have hlt : strLt k1 k = true := h (k1, v1) (by simp)
    have hne : k ≠ k1 := fun he => strLt_ne hlt he.symm
    simp only [mapInsert, if_neg hne, strLt_asymm hlt, Bool.false_eq_true,
      if_false, List.cons_append, List.cons.injEq, true_and]
    exact ih (fun p hp => h p (by simp [hp]))

theorem foldl_mapInsert {l m : List (String × Value)}
    (hsep : ∀ p ∈ m, ∀ q ∈ l, strLt p.1 q.1 = true)
    (hl : keysSorted l = true) :
    l.foldl (fun acc kv => mapInsert acc kv.1 kv.2) m = m ++ l := by
  induction l generalizing m with
  | nil => simp
  | cons hd t ih =>
    obtain ⟨k, v⟩ := hd
    simp only [List.foldl_cons]
    rw [mapInsert_append (fun p hp => hsep p hp (k, v) (by simp))]
    rw [ih (m := m ++ [(k, v)])]
    · simp
    · intro p hp q hq
      rcases List.mem_append.mp hp with hp1 | hp2
      · exact hsep p hp1 q (by simp [hq])
      · simp only [List.mem_singleton] at hp2
        subst hp2
        exact keysSorted_head_lt hl q hq
    · exact keysSorted_tail hl

theorem buildMap_sorted {l : List (String × Value)}
    (hl : keysSorted l = true) : buildMap l = l := by
  unfold buildMap
  rw [foldl_mapInsert (m := []) (fun p hp => by cases hp) hl]
  simp

/-! ## The wire round trip normalizes number kinds -/

theorem decode_encode_number (w : F32 → F64) (n : Number) :
    decodeJNum (encodeNumber w n) = normNumber w n := by
  cases n with
  | int i =>
    simp only [encodeNumber, normNumber]
    split <;> simp [decodeJNum]
  | uint n => rfl
  | double d => rfl
  | float f => rfl

theorem keysSorted_normKVs (w : F32 → F64) :
    ∀ kvs, keysSorted (normKVs w kvs) = keysSorted kvs
  | [] => rfl
  | [(k, v)] => rfl
  | (k1, v1) :: (k2, v2) :: t => by
    have ih := keysSorted_normKVs w ((k2, v2) :: t)
    simp only [normKVs] at ih ⊢
    simp only [keysSorted]
    rw [ih]

mutual

theorem roundtripValue (w : F32 → F64) :
    ∀ (v : Value), producible v = true → noReservedKeys v = true →
      decodeValue (encodeValue w v) = normValue w v
  | .str s, _, _ => by simp [encodeValue, decodeValue, normValue]
  | .num n, _, _ => by
    simp [encodeValue, decodeValue, normValue, decode_encode_number]
  | .bool b, _, _ => by simp [encodeValue, decodeValue, normValue]
  | .null, _, _ => by simp [encodeValue, decodeValue, normValue]
  | .ref r, hp, _ => by simp [producible] at hp
  | .query v, hp, _ => by simp [producible] at hp
  | .bytes bs, hp, _ => by simp [producible] at hp
  | .date d, hp, _ => by simp [producible] at hp
  | .set v, hp, _ => by simp [producible] at hp
  | .ts t, hp, _ => by simp [producible] at hp
  | .arr xs, hp, hr => by
    have hl := roundtripList w xs (by simpa [producible] using hp)
      (by simpa [noReservedKeys] using hr)
    simp [encodeValue, decodeValue, normValue, hl]
  | .obj [], _, _ => by
    simp [encodeValue, encodeKVs, decodeValue, decodeKVs, buildMap,
      normValue, normKVs]
  | .obj [(k, v0)], hp, hr => by
    have hp0 : producible v0 = true := by
      simp only [producible, producibleKVs, Bool.and_eq_true] at hp
      exact hp.2.1
    simp only [noReservedKeys, noReservedKeysKVs, Bool.and_eq_true,
      Bool.not_eq_true', beq_eq_false_iff_ne, ne_eq, and_assoc] at hr
    obtain ⟨h1, h2, h3, h4, h5, h6, hv0, -⟩ := hr
    have ih := roundtripValue w v0 hp0 hv0
    simp only [encodeValue, encodeKVs, decodeValue]
    rw [if_neg h1, if_neg h2, if_neg h3, if_neg h4, if_neg h5, if_neg h6]
    simp [buildMap, mapInsert, ih, normValue, normKVs]
  | .obj ((k1, v1) :: (k2, v2) :: t), hp, hr => by
    simp only [producible, Bool.and_eq_true] at hp
    simp only [noReservedKeys] at hr
    have hkv := roundtripKVs w ((k1, v1) :: (k2, v2) :: t) hp.2 hr
    have hkv2 : decodeKVs ((k1, encodeValue w v1) ::
        (k2, encodeValue w v2) :: encodeKVs w t) =
        normKVs w ((k1, v1) :: (k2, v2) :: t) := hkv
    simp only [encodeValue, encodeKVs, decodeValue]
    rw [hkv2, buildMap_sorted (by rw [keysSorted_normKVs w]; exact hp.1)]
    simp [normValue]

theorem roundtripList (w : F32 → F64) :
    ∀ (xs : List Value), producibleList xs = true →
      noReservedKeysList xs = true →
      decodeList (encodeList w xs) = normList w xs
  | [], _, _ => rfl
  | x :: t, hp, hr => by
    simp only [producibleList, Bool.and_eq_true] at hp
    simp only [noReservedKeysList, Bool.and_eq_true] at hr
    have h1 := roundtripValue w x hp.1 hr.1
    have h2 := roundtripList w t hp.2 hr.2
    simp [encodeList, decodeList, normList, h1, h2]

theorem roundtripKVs (w : F32 → F64) :
    ∀ (kvs : List (String × Value)), producibleKVs kvs = true →
      noReservedKeysKVs kvs = true →
      decodeKVs (encodeKVs w kvs) = normKVs w kvs
  | [], _, _ => rfl
  | (k, v) :: t, hp, hr => by
    simp only [producibleKVs, Bool.and_eq_true] at hp
    simp only [noReservedKeysKVs, Bool.and_eq_true, and_assoc] at hr
    have h1 := roundtripValue w v hp.1 hr.2.2.2.2.2.2.1
    have h2 := roundtripKVs w t hp.2 hr.2.2.2.2.2.2.2
    simp [encodeKVs, decodeKVs, normKVs, h1, h2]

end

theorem arrayReuse_eq_map : ∀ xs, arrayReuse xs = xs.map Expr.reuse
  | [] => rfl
  | x :: t => by simp [arrayReuse, arrayReuse_eq_map t]

theorem objectReuse_eq_map :
    ∀ kvs : List (String × Expr),
      objectReuse kvs = kvs.map (fun kv => (kv.1, Expr.reuse kv.2))
  | [] => rfl
  | (k, v) :: t => by simp [objectReuse, objectReuse_eq_map t]

/-! ## The claims -/

/-- C1, counterexample: the round trip is not the identity on number
kinds.  The value built from the host integer `4i64` carries the
`Int64` kind, but decoding its encoding yields the `UInt64` kind,
because the untagged `Number` deserializer tries `UInt(u64)` first and
a non-negative integer matches it. -/
theorem claim1_roundtrip_counterexample :
    decodeValue (encodeValue (fun f => ⟨f.bits⟩) (Value.num (.int 4)))
        = Value.num (.uint 4)
      ∧ Value.num (.uint 4) ≠ Value.num (.int 4) :=
  ⟨rfl, by simp⟩

/-- C1 (amended): for every value producible from host primitives whose
mappings avoid the reserved annotation keys, decoding the encoding
yields the value back up to numeric-kind normalization: a non-negative
`Int64` comes back as `UInt64`, a `Float32` comes back as `Double64`
(through the f32-to-f64 widening `w` the codec's text round trip
performs), and everything else — including object contents up to key
order — is unchanged. -/
theorem claim1_roundtrip_normalizes (w : F32 → F64) (v : Value)
    (hp : producible v = true) (hr : noReservedKeys v = true) :
    decodeValue (encodeValue w v) = normValue w v :=
  roundtripValue w v hp hr

/-- C1, witness for the amended round trip at a concrete object. -/
theorem claim1_roundtrip_normalizes_witness :
    producible (Value.obj [("age", Value.num (.int 3)),
      ("name", Value.str "Kai")]) = true
    ∧ noReservedKeys (Value.obj [("age", Value.num (.int 3)),
        ("name", Value.str "Kai")]) = true
    ∧ decodeValue (encodeValue (fun f => ⟨f.bits⟩)
        (Value.obj [("age", Value.num (.int 3)), ("name", Value.str "Kai")]))
      = normValue (fun f => ⟨f.bits⟩)
          (Value.obj [("age", Value.num (.int 3)), ("name", Value.str "Kai")]) :=
  ⟨by decide, by decide,
    claim1_roundtrip_normalizes (fun f => ⟨f.bits⟩) _ (by decide) (by decide)⟩

/-- C2, counterexample: an empty but valid-UTF-8 body does not yield
`EmptyResponse`.  With status 200 and body `""` the code commits to
parsing the empty body as the success shape (whose
`serde_json::from_str(..).unwrap()` then panics); `EmptyResponse` is
produced only when the body bytes are not valid UTF-8. -/
theorem claim2_classification_counterexample :
    requestClassify 200 (some "") = Outcome.parseSuccessBody ""
      ∧ requestClassify 200 (some "") ≠ Outcome.emptyResponse :=
  ⟨rfl, by decide⟩

/-- C2 (amended): `Client::request` classifies a completed exchange
solely from the status code and the UTF-8 decoding of the body: a
non-UTF-8 body yields `EmptyResponse`; otherwise a 2xx status commits
the body to the `{resource: Value}` parse, 401 yields `Unauthorized`
without touching the body, 400 and 404 commit the body to the
structured-error parse, and any other status yields the raw-body error
(`TemporaryFailure`/`DatabaseError`).  An empty body is not
special-cased: it is classified by status like any other body. -/
theorem claim2_classification (status : Nat) (body : String) :
    requestClassify status none = .emptyResponse
    ∧ (200 ≤ status ∧ status < 300 →
        requestClassify status (some body) = .parseSuccessBody body)
    ∧ (status = 401 → requestClassify status (some body) = .unauthorized)
    ∧ (status = 400 → requestClassify status (some body) = .parseBadRequest body)
    ∧ (status = 404 → requestClassify status (some body) = .parseNotFound body)
    ∧ (¬(200 ≤ status ∧ status < 300) → status ≠ 401 → status ≠ 400 →
        status ≠ 404 → requestClassify status (some body) = .databaseError body) := by
  refine ⟨rfl, ?_, ?_, ?_, ?_, ?_⟩
  · intro h
    simp only [requestClassify]
    rw [if_pos (by simp [h.1, h.2])]
  · intro h
    subst h
    rfl
  · intro h
    subst h
    rfl
  · intro h
    subst h
    rfl
  · intro hn h1 h2 h3
    simp only [requestClassify]
    rw [if_neg (by simpa using hn), if_neg h1, if_neg h2, if_neg h3]

/-- C2, witness: concrete classifications through the theorem. -/
theorem claim2_classification_witness :
    requestClassify 500 (some "oops") = .databaseError "oops"
      ∧ requestClassify 201 (some "r") = .parseSuccessBody "r" :=
  ⟨(claim2_classification 500 "oops").2.2.2.2.2 (by omega)
      (by decide) (by decide) (by decide),
    (claim2_classification 201 "r").2.1 ⟨by omega, by omega⟩⟩

/-- C3: evaluating the timeout-race error mapping at the elapsed
outcome.  When the configured timeout elapses before the HTTP exchange
completes, `tokio_timer::Timeout` resolves to the `elapsed` error; the
`map_err` in `Client::request` tests `is_timer()`, which is false for
an elapsed deadline (it is true only for timer-infrastructure
failures), and `into_inner()` is `None`, so the query's result is
`Error::Other` — not the `TimeoutError` the spec promises. -/
theorem claim3_timeout_elapsed_yields_other :
    raceResult (T := Unit) (.error .elapsed) = .error Error.other
      ∧ Error.other ≠ Error.timeoutError :=
  ⟨rfl, by simp⟩

/-- C4: a client built from a secret with no overrides targets
`https://db.fauna.com` with a 60-second timeout, and `build_request`
produces a POST carrying exactly the four headers: the decimal byte
length of the payload, the JSON content type, `Basic` auth derived as
`base64(secret ++ ":")`, and the fixed protocol version `2.1`. -/
theorem claim4_defaults_and_request (secret payload : String) :
    ((ClientBuilder.new secret).build).uri = "https://db.fauna.com"
    ∧ ((ClientBuilder.new secret).build).timeout = ⟨60, 0⟩
    ∧ ((ClientBuilder.new secret).build).authorization
        = "Basic " ++ base64Encode (utf8Bytes (secret ++ ":"))
    ∧ ((ClientBuilder.new secret).build).build_request payload =
        { method := "POST", uri := "https://db.fauna.com",
          headers :=
            [("Content-Length", Nat.repr (utf8Bytes payload).length),
             ("Content-Type", "application/json"),
             ("Authorization",
               "Basic " ++ base64Encode (utf8Bytes (secret ++ ":"))),
             ("X-FaunaDB-API-Version", "2.1")],
          body := payload } :=
  ⟨rfl, rfl, rfl, rfl⟩

/-- C5: every host-primitive conversion into `Expr`/`Value` is total
(each is a plain total function), and the numeric ones land on
the declared kind — all signed widths on `Int64`, all unsigned widths
on `UInt64`, `f32` on `Float32`, `f64` on `Double64` — and
serialization is driven by the kind alone: the 64-bit integer kinds
write the exact integer, `Double64` writes its own payload, and
`Float32` goes through the f32-width formatter `w`, never through the
f64 path. -/
theorem claim5_numeric_conversions (i : Int) (n : Nat) (d : F64) (f : F32)
    (w : F32 → F64) (s : String) (b : Bool) (xs : List Expr)
    (kvs : List (String × Expr)) (vs : List Value)
    (m : List (String × Value)) :
    Number.fromSignedInt i = .int i
    ∧ Number.fromUnsignedInt n = .uint n
    ∧ Number.fromF64 d = .double d
    ∧ Number.fromF32 f = .float f
    ∧ Expr.fromSignedInt i = .num (.int i)
    ∧ Expr.fromUnsignedInt n = .num (.uint n)
    ∧ Expr.fromF64 d = .num (.double d)
    ∧ Expr.fromF32 f = .num (.float f)
    ∧ Expr.fromStr s = .str s
    ∧ Expr.fromBool b = .bool b
    ∧ Expr.fromVec xs = .arrE xs
    ∧ Expr.fromObject kvs = .objA kvs
    ∧ Value.fromSignedInt i = .num (.int i)
    ∧ Value.fromUnsignedInt n = .num (.uint n)
    ∧ Value.fromStr s = .str s
    ∧ Value.fromVec vs = .arr vs
    ∧ Value.fromMap m = .obj m
    ∧ encodeNumber w (.uint n) = .pos n
    ∧ encodeNumber w (.int i) = (if 0 ≤ i then .pos i.toNat else .neg i)
    ∧ encodeNumber w (.double d) = .flt d
    ∧ encodeNumber w (.float f) = .flt (w f) :=
  ⟨rfl, rfl, rfl, rfl, rfl, rfl, rfl, rfl, rfl, rfl, rfl, rfl, rfl, rfl,
    rfl, rfl, rfl, rfl, rfl, rfl, rfl⟩

/-- C6: `path()` renders `location.path() ++ "/" ++ id` when a location
is present and just the id otherwise; the four root singletons render
as their literal names; `class("Cats")` resolves to `classes/Cats` and
a ref with id `123` given `set_class("Cats")` resolves to
`classes/Cats/123`. -/
theorem claim6_path_resolution (id : String) (k : RefKind) (loc : Ref) :
    (Ref.mk id (some (k, loc))).path = loc.path ++ "/" ++ id
    ∧ (Ref.mk id none).path = id
    ∧ (Ref.inst "classes").path = "classes"
    ∧ (Ref.inst "indexes").path = "indexes"
    ∧ (Ref.inst "databases").path = "databases"
    ∧ (Ref.inst "functions").path = "functions"
    ∧ (Ref.cls "Cats").path = "classes/Cats"
    ∧ ((Ref.inst "123").set_class "Cats").path = "classes/Cats/123" :=
  ⟨rfl, rfl, rfl, rfl, rfl, rfl, by decide, by decide⟩

/-- C7: the date 2001-05-31 encodes as `{"@date":"2001-05-31"}`; the
instant at epoch+60s encodes as `{"@ts":"1970-01-01T00:01:00Z"}`; the
microseconds deserializer maps `60000000` to that same instant; and
whenever the microsecond input has no valid calendar representation
(`timestamp_opt` is `None`), a decode error is surfaced — conversely a
successful decode is exactly the `Single` result, never a clamped
value. -/
theorem claim7_date_timestamp_codec (w : F32 → F64) (v : Int)
    (t : Timestamp) :
    encodeValue w (.date ⟨2001, 5, 31⟩) = .obj [("@date", .str "2001-05-31")]
    ∧ encodeValue w (.ts ⟨60, 0⟩) = .obj [("@ts", .str "1970-01-01T00:01:00Z")]
    ∧ visit_i64 60000000 = .ok ⟨60, 0⟩
    ∧ (timestamp_opt (v.tdiv 1000000) (castU32 (v.tmod 1000000 * 1000))
          = .nothing →
        visit_i64 v = .error ("value is not a legal timestamp: " ++ toString v))
    ∧ (visit_i64 v = .ok t →
        timestamp_opt (v.tdiv 1000000) (castU32 (v.tmod 1000000 * 1000))
          = .single t) := by
  refine ⟨rfl, rfl, rfl, ?_, ?_⟩
  · intro h
    simp only [visit_i64, h, chrono_from]
  · intro h
    simp only [visit_i64] at h
    cases hm : timestamp_opt (v.tdiv 1000000)
        (castU32 (v.tmod 1000000 * 1000)) with
    | nothing => rw [hm] at h; simp [chrono_from] at h
    | ambiguous t1 t2 => rw [hm] at h; simp [chrono_from] at h
    | single t0 =>
      rw [hm] at h
      simp only [chrono_from, Except.ok.injEq] at h
      rw [h]

/-- C7, witness: the microsecond input `-1` (whose wrapped nanosecond
cast exceeds the legal range) has no valid representation and decoding
it surfaces an error. -/
theorem claim7_date_timestamp_codec_witness :
    timestamp_opt ((-1 : Int).tdiv 1000000)
        (castU32 ((-1 : Int).tmod 1000000 * 1000)) = .nothing
    ∧ visit_i64 (-1)
        = .error ("value is not a legal timestamp: " ++ toString (-1 : Int)) :=
  ⟨by decide,
    (claim7_date_timestamp_codec (fun f => ⟨f.bits⟩) (-1) ⟨0, 0⟩).2.2.2.1
      (by decide)⟩

/-- C8: `reuse()` re-applies the annotated-object tag to a simple or
annotated object and keeps a simple array simple, recursing into object
values and array elements, and returns every other variant — strings,
numbers, booleans, null, quotes, bytes, dates, refs, sets, timestamps
and queries — unchanged. -/
theorem claim8_reuse (kvs : List (String × Expr)) (xs : List Expr)
    (s : String) (n : Number) (b : Bool) (bs : List Nat) (d : Date)
    (r : Ref) (e m terms : Expr) (ts0 : Timestamp) (q : QueryExpr) :
    Expr.reuse (.objS kvs) = .objA (objectReuse kvs)
    ∧ Expr.reuse (.objA kvs) = .objA (objectReuse kvs)
    ∧ Expr.reuse (.arrE xs) = .arrE (arrayReuse xs)
    ∧ arrayReuse xs = xs.map Expr.reuse
    ∧ objectReuse kvs = kvs.map (fun kv => (kv.1, Expr.reuse kv.2))
    ∧ Expr.reuse (.str s) = .str s
    ∧ Expr.reuse (.num n) = .num n
    ∧ Expr.reuse (.bool b) = .bool b
    ∧ Expr.reuse .null = .null
    ∧ Expr.reuse (.quote e) = .quote e
    ∧ Expr.reuse (.bytes bs) = .bytes bs
    ∧ Expr.reuse (.date d) = .date d
    ∧ Expr.reuse (.ref r) = .ref r
    ∧ Expr.reuse (.setE m terms) = .setE m terms
    ∧ Expr.reuse (.ts ts0) = .ts ts0
    ∧ Expr.reuse (.query q) = .query q :=
  ⟨rfl, rfl, rfl, arrayReuse_eq_map xs, objectReuse_eq_map kvs, rfl, rfl,
    rfl, rfl, rfl, rfl, rfl, rfl, rfl, rfl, rfl⟩

/-- C9: `database(id)` and `function(id)` nest their parent-location
reference under the JSON key `class` (the serde rename shared with
class refs), so decoding the encoding yields a reference whose location
kind is `Class` — structural equality is not preserved — while `path()`
still renders `databases/{id}` resp. `functions/{id}`. -/
theorem claim9_database_function_refs (id : String) :
    encodeRef (Ref.database id) =
      .obj [("id", .str id),
            ("class", .obj [("@ref", .obj [("id", .str "databases")])])]
    ∧ encodeRef (Ref.function id) =
      .obj [("id", .str id),
            ("class", .obj [("@ref", .obj [("id", .str "functions")])])]
    ∧ decodeRef (encodeRef (Ref.database id)) =
        some (Ref.mk id (some (.cls, Ref.mk "databases" none)))
    ∧ decodeRef (encodeRef (Ref.function id)) =
        some (Ref.mk id (some (.cls, Ref.mk "functions" none)))
    ∧ decodeRef (encodeRef (Ref.database id)) ≠ some (Ref.database id)
    ∧ decodeRef (encodeRef (Ref.function id)) ≠ some (Ref.function id)
    ∧ (Ref.database id).path = "databases" ++ "/" ++ id
    ∧ (Ref.function id).path = "functions" ++ "/" ++ id := by
  refine ⟨rfl, rfl, rfl, rfl, ?_, ?_, rfl, rfl⟩
  · intro h
    rw [show decodeRef (encodeRef (Ref.database id)) =
        some (Ref.mk id (some (.cls, Ref.mk "databases" none))) from rfl] at h
    injection h with h
    simp [Ref.database, Ref.inst] at h
  · intro h
    rw [show decodeRef (encodeRef (Ref.function id)) =
        some (Ref.mk id (some (.cls, Ref.mk "functions" none))) from rfl] at h
    injection h with h
    simp [Ref.function, Ref.inst] at h

/-- C10, counterexample: the bracket operator's `Null` result does not
characterize lookup failure exactly — indexing an object that stores an
explicit `Null` value under a present key returns `Null` even though
the lookup succeeds and none of the failure cases holds. -/
theorem claim10_bracket_counterexample :
    Value.bracket (.obj [("a", .null)]) (.key "a") = Value.null
    ∧ indexFails (.obj [("a", .null)]) (.key "a") = false
    ∧ Value.get (.obj [("a", .null)]) (.key "a") = some Value.null :=
  ⟨rfl, rfl, rfl⟩

/-- C10 (amended): `get` is total and returns `none` exactly when the
value is not the matching container kind, the key is absent, or the
position is out of bounds; the bracket operator returns
`get(i).unwrap_or(Null)`, so it yields `Null` exactly when the lookup
fails **or** the stored value is itself `Null`. -/
theorem claim10_get_bracket (v : Value) (i : IndexKey) :
    (v.get i = none ↔ indexFails v i = true)
    ∧ v.bracket i = (v.get i).getD Value.null
    ∧ (v.bracket i = Value.null ↔
        (v.get i = none ∨ v.get i = some Value.null)) := by
  refine ⟨?_, rfl, ?_⟩
  · cases i with
    | pos n =>
      cases v <;> simp [Value.get, indexInto, indexFails]
    | key k =>
      cases v <;>
        simp [Value.get, indexInto, indexFails, Option.isNone_iff_eq_none]
  · unfold Value.bracket Value.get
    cases h : indexInto i v with
    | none => simp
    | some x => simp

end Fauna
